import Mathlib

/-!
Shallow embedding of `src/vggsfm/models/track_modules/base_track_predictor.py`
(`BaseTrackerPredictor.__init__` and `BaseTrackerPredictor.forward`).

Conventions of the embedding:
* machine floats are idealised as real numbers `ℝ`;
* a tensor indexed by (batch, frame, track) is a function `ℕ → ℕ → ℕ → _`
  (the batch/frame/track sizes only matter where the code reads them);
* per-cell channel vectors that the code concatenates and pads are `List ℝ`;
* per-cell latent feature vectors are `ℕ → ℝ`, summed over
  `Finset.range latent_dim` where the code contracts over channels;
* the collaborators imported from files that are not part of the sources
  (`blocks.py`, `utils.py`: `EfficientUpdateFormer`, `CorrBlock`,
  `EfficientCorrBlock`, `sample_features4d`, `get_2d_embedding`,
  `get_2d_sincos_pos_embed`) are modelled from the spec as injected
  capabilities, see the `Ext` structure below.
-/

namespace VggSfm

/-- A 2D coordinate (x, y) in feature-map space. -/
abbrev Vec2 : Type := ℝ × ℝ

/-- coords tensor: batch → frame → track → 2D point
(the layout `B x S x N x 2` of the python code). -/
abbrev CoordsT : Type := ℕ → ℕ → ℕ → Vec2

/-- track feature tensor: batch → frame → track → channel → ℝ
(the layout `B x S x N x C` of the python code). -/
abbrev FeatsT : Type := ℕ → ℕ → ℕ → ℕ → ℝ

/-- visibility tensor: batch → frame → track → ℝ. -/
abbrev VisT : Type := ℕ → ℕ → ℕ → ℝ

/-- per-cell channel-list tensor in the layout `(b, n, s)` used for the
transformer input (`B*N, S, channels` in the python code). -/
abbrev ChanT : Type := ℕ → ℕ → ℕ → List ℝ

/-- Elementwise scaling of a 2D point, `v * r` on a torch tensor. -/
def vscale (r : ℝ) (v : Vec2) : Vec2 := (v.1 * r, v.2 * r)

/-- Elementwise sum of two 2D points. -/
def vadd (v w : Vec2) : Vec2 := (v.1 + w.1, v.2 + w.2)

/-- Elementwise difference of two 2D points. -/
def vsub (v w : Vec2) : Vec2 := (v.1 - w.1, v.2 - w.2)

/-!  ## Construction-time dimension bookkeeping (`__init__`, lines 44-53)  -/

/-- `self.transformer_dim` as computed in `__init__`:
the base width `corr_levels * (corr_radius * 2 + 1) ** 2 + latent_dim * 2`,
then, in fine mode, `+= 4` if the base is even else `+= 5`
(the legacy rule), and otherwise `+= (4 - dim % 4) % 4`
(round up to a multiple of 4). -/
def transformerDim (corr_levels corr_radius latent_dim : ℕ) (fine : Bool) : ℕ :=
  let base := corr_levels * (corr_radius * 2 + 1) ^ 2 + latent_dim * 2
  if fine then base + (if base % 2 = 0 then 4 else 5)
  else base + (4 - base % 4) % 4

/-- `self.flows_emb_dim = latent_dim // 2` (`__init__`, line 44). -/
def flowsEmbDim (latent_dim : ℕ) : ℕ := latent_dim / 2

/-!  ## Numeric building blocks (standard PyTorch layer semantics)  -/

/-- The Gauss error function, used by the exact form of GELU. -/
noncomputable def erf (x : ℝ) : ℝ :=
  (2 / Real.sqrt Real.pi) * ∫ t in (0:ℝ)..x, Real.exp (-(t ^ 2))

/-- Exact GELU activation as in `torch.nn.GELU`:
`gelu x = x * Phi x` with `Phi` the standard Gaussian CDF. -/
noncomputable def gelu (x : ℝ) : ℝ := x * ((1 + erf (x / Real.sqrt 2)) / 2)

/-- Logistic activation as in `torch.sigmoid`. -/
noncomputable def sigmoid (x : ℝ) : ℝ := 1 / (1 + Real.exp (-x))

/-- `nn.GroupNorm(1, latent_dim)` applied to one sample `x` of `latent_dim`
channels: a single group, so mean and variance are taken over all channels,
then a per-channel affine transform `gamma, beta`; `eps = 1e-5` is the torch
default. -/
noncomputable def groupNorm1 (latent_dim : ℕ) (gamma beta : ℕ → ℝ) (x : ℕ → ℝ) :
    ℕ → ℝ :=
  let mu := (∑ j ∈ Finset.range latent_dim, x j) / latent_dim
  let var := (∑ j ∈ Finset.range latent_dim, (x j - mu) ^ 2) / latent_dim
  fun i => gamma i * ((x i - mu) / Real.sqrt (var + 1e-5)) + beta i

/-- `self.ffeat_updater = nn.Sequential(nn.Linear(latent_dim, latent_dim),
nn.GELU())` (`__init__`, line 71) applied to one sample:
an affine map followed by the GELU nonlinearity. -/
noncomputable def ffeatUpdater (latent_dim : ℕ) (w : ℕ → ℕ → ℝ) (bias : ℕ → ℝ)
    (x : ℕ → ℝ) : ℕ → ℝ :=
  fun i => gelu (bias i + ∑ j ∈ Finset.range latent_dim, w i j * x j)

/-!  ## The module and its construction (`__init__`)  -/

/-- Parameters of `self.vis_predictor = nn.Sequential(nn.Linear(latent_dim, 1))`:
one affine projection of the latent feature to a scalar. -/
structure VisHead where
  w : ℕ → ℝ
  b : ℝ

/-- The construction-time state of `BaseTrackerPredictor`: configuration
values plus the learned parameters of the layers built in `__init__`
(`self.norm`, `self.ffeat_updater`, and optionally `self.vis_predictor`). -/
structure Module where
  stride : ℕ
  corr_levels : ℕ
  corr_radius : ℕ
  latent_dim : ℕ
  hidden_size : ℕ
  fine : Bool
  efficient_corr : Bool
  flows_emb_dim : ℕ
  transformer_dim : ℕ
  normGamma : ℕ → ℝ
  normBeta : ℕ → ℝ
  updW : ℕ → ℕ → ℝ
  updB : ℕ → ℝ
  visPredictor : Option VisHead

/-- `BaseTrackerPredictor.__init__`: records the configuration, computes
`flows_emb_dim` and `transformer_dim`, and constructs `self.vis_predictor`
only when `fine` is off (lines 73-74).  `use_spaceatt` and `depth` only shape
the external update former and are accepted for signature fidelity; the
learned parameters of the constructed layers are supplied explicitly. -/
def mkModule (stride corr_levels corr_radius latent_dim hidden_size : ℕ)
    (_use_spaceatt : Bool) (_depth : ℕ) (fine efficient_corr : Bool)
    (gamma beta : ℕ → ℝ) (updW : ℕ → ℕ → ℝ) (updB : ℕ → ℝ) (vis : VisHead) :
    Module :=
  { stride := stride
    corr_levels := corr_levels
    corr_radius := corr_radius
    latent_dim := latent_dim
    hidden_size := hidden_size
    fine := fine
    efficient_corr := efficient_corr
    flows_emb_dim := flowsEmbDim latent_dim
    transformer_dim := transformerDim corr_levels corr_radius latent_dim fine
    normGamma := gamma
    normBeta := beta
    updW := updW
    updB := updB
    visPredictor := if fine then none else some vis }

/-!  ## External collaborators  -/

/-- Modelled from the spec: the collaborators that `forward` consumes but
whose code lives outside the given sources (`blocks.py`, `utils.py`).

* `sampleRef` models `sample_features4d(fmaps[:, 0], pts)`: the bilinear
  Feature Sampler applied to the reference-frame feature map, returning the
  channel vector of a batch at a continuous coordinate.
* `fcorrDense` models `CorrBlock(...).corr(track_feats)` followed by
  `.sample(coords)`, and `fcorrEff` models
  `EfficientCorrBlock(...).sample(coords, track_feats)`: per (batch, frame,
  track) a correlation vector of `corr_levels * (2*corr_radius+1)^2`
  channels.
* `get2dEmb` models `get_2d_embedding(flow, flows_emb_dim, cat_coords=False)`
  for a single flow vector: per the spec a fixed-form sinusoidal-style
  expansion of dimension `flows_emb_dim`; the length law records that
  contract.
* `samplePos` models `get_2d_sincos_pos_embed(transformer_dim, (HH, WW))`
  composed with `sample_features4d` at one coordinate: a deterministic grid
  embedding of width `transformer_dim` sampled at a continuous point; the
  length law records the width contract.
* `updateformer` models `self.updateformer` (`EfficientUpdateFormer`), the
  external Update Function over the `(batch, track, frame)` grid. -/
structure Ext where
  sampleRef : ℕ → Vec2 → ℕ → ℝ
  fcorrDense : CoordsT → FeatsT → ℕ → ℕ → ℕ → List ℝ
  fcorrEff : CoordsT → FeatsT → ℕ → ℕ → ℕ → List ℝ
  get2dEmb : ℕ → Vec2 → List ℝ
  get2dEmb_len : ∀ d v, (get2dEmb d v).length = d
  samplePos : ℕ → ℕ → Vec2 → List ℝ
  samplePos_len : ∀ d b v, (samplePos d b v).length = d
  updateformer : ChanT → ChanT

/-!  ## `forward`: query scaling and initialisation (lines 87-111)  -/

/-- The query-point scaling at the top of `forward` (lines 91-93): the
division by `down_ratio` and then by `stride` happens only inside
`if down_ratio > 1:`. -/
noncomputable def scaleQuery (stride : ℕ) (downRatio : ℝ) (q : Vec2) : Vec2 :=
  if 1 < downRatio then (q.1 / downRatio / stride, q.2 / downRatio / stride)
  else q

/-- `coords = query_points.clone().reshape(B, 1, N, 2).repeat(1, S, 1, 1)`
(line 97): the scaled query point broadcast to every frame. -/
noncomputable def initCoords (m : Module) (downRatio : ℝ)
    (queryPoints : ℕ → ℕ → Vec2) : CoordsT :=
  fun b _s n => scaleQuery m.stride downRatio (queryPoints b n)

/-- The per-iteration state: `coords` and `track_feats`. -/
structure St where
  coords : CoordsT
  trackFeats : FeatsT

/-- Lines 99-104: `query_track_feat = sample_features4d(fmaps[:, 0],
coords[:, 0])` and `track_feats = query_track_feat.unsqueeze(1).repeat(1, S,
1, 1)`: the state before the first iteration, with the reference-frame
sampled feature broadcast across all frames. -/
noncomputable def initSt (m : Module) (env : Ext) (downRatio : ℝ)
    (queryPoints : ℕ → ℕ → Vec2) : St :=
  { coords := initCoords m downRatio queryPoints
    trackFeats := fun b _s n i =>
      env.sampleRef b (initCoords m downRatio queryPoints b 0 n) i }

/-!  ## `forward`: one refinement iteration (lines 116-187)  -/

/-- Lines 122-126: the correlation volume of the current state, from the
strategy selected by `self.efficient_corr`; layout `(b, s, n, channel)`. -/
def corrOf (m : Module) (env : Ext) (st : St) : ℕ → ℕ → ℕ → List ℝ :=
  if m.efficient_corr then env.fcorrEff st.coords st.trackFeats
  else env.fcorrDense st.coords st.trackFeats

/-- Line 133: `flows = (coords - coords[:, 0:1]).permute(0, 2, 1, 3)`:
the displacement of the current coordinate from the reference-frame
coordinate, in the layout `(b, n, s)`. -/
def flowsOf (coords : CoordsT) : ℕ → ℕ → ℕ → Vec2 :=
  fun b n s => vsub (coords b s n) (coords b 0 n)

/-- Lines 135-138: the flow embedding
`get_2d_embedding(flows, flows_emb_dim, cat_coords=False)` concatenated
with the raw flows. -/
def flowsEmbOf (env : Ext) (fdim : ℕ) (coords : CoordsT) : ChanT :=
  fun b n s =>
    env.get2dEmb fdim (flowsOf coords b n s)
      ++ [(flowsOf coords b n s).1, (flowsOf coords b n s).2]

/-- Line 143: `transformer_input = torch.cat([flows_emb, fcorrs_,
track_feats_], dim=2)` for one cell `(b, n, s)`. -/
def rawInputOf (m : Module) (env : Ext) (coords : CoordsT) (feats : FeatsT)
    (fcorrs : ℕ → ℕ → ℕ → List ℝ) : ChanT :=
  fun b n s =>
    flowsEmbOf env m.flows_emb_dim coords b n s
      ++ fcorrs b s n
      ++ List.ofFn (fun i : Fin m.latent_dim => feats b s n i.val)

/-- Lines 145-149: if the concatenated input is narrower than
`transformer_dim`, append `pad = torch.zeros_like(flows_emb[..., 0:pad_dim])`
on the right.  The zero block has `min pad_dim flowsLen` channels because the
slice `0:pad_dim` of `flows_emb` is clamped to the width of `flows_emb`. -/
def padTI (td flowsLen : ℕ) (ti : List ℝ) : List ℝ :=
  if ti.length < td then
    ti ++ List.replicate (min (td - ti.length) flowsLen) 0
  else ti

/-- The assembled and padded per-step transformer input of one cell. -/
def transformerInputOf (m : Module) (env : Ext) (coords : CoordsT)
    (feats : FeatsT) (fcorrs : ℕ → ℕ → ℕ → List ℝ) : ChanT :=
  fun b n s =>
    padTI m.transformer_dim (flowsEmbOf env m.flows_emb_dim coords b n s).length
      (rawInputOf m env coords feats fcorrs b n s)

/-- Lines 151-157: the positional embedding of width `transformer_dim`
sampled at `coords[:, 0]` (the reference-frame coordinates) and added
elementwise to the per-step input of every frame `s`. -/
def addPosEmb (m : Module) (env : Ext) (coords : CoordsT) (ti : ChanT) :
    ChanT :=
  fun b n s =>
    List.zipWith (· + ·) (ti b n s)
      (env.samplePos m.transformer_dim b (coords b 0 n))

/-- Lines 122-163: the Update Function output `delta` of one iteration, in
the layout `(b, n, s, channel)`. -/
def stepDelta (m : Module) (env : Ext) (st : St) : ChanT :=
  env.updateformer
    (addPosEmb m env st.coords
      (transformerInputOf m env st.coords st.trackFeats (corrOf m env st)))

/-- Line 166: `delta_coords_ = delta[:, :, :2]`. -/
def deltaCoordsOf (delta : ChanT) : ℕ → ℕ → ℕ → Vec2 :=
  fun b n s => ((delta b n s).getD 0 0, (delta b n s).getD 1 0)

/-- Line 167: `delta_feats_ = delta[:, :, 2:]`. -/
def deltaFeatsOf (delta : ChanT) : ℕ → ℕ → ℕ → ℕ → ℝ :=
  fun b n s j => (delta b n s).getD (2 + j) 0

/-- Line 173: `track_feats_ = self.ffeat_updater(self.norm(delta_feats_)) +
track_feats_`: the additive residual update of the track features; only the
delta path goes through the normalization and the activation. -/
noncomputable def updateTrackFeats (m : Module) (old : FeatsT)
    (deltaFeats : ℕ → ℕ → ℕ → ℕ → ℝ) : FeatsT :=
  fun b s n i =>
    ffeatUpdater m.latent_dim m.updW m.updB
      (groupNorm1 m.latent_dim m.normGamma m.normBeta (deltaFeats b n s)) i
      + old b s n i

/-- One pass of the loop body (lines 116-181): compute the delta, update the
features residually, add the coordinate delta (line 177), and re-anchor the
reference frame with `coords[:, 0] = coords_backup[:, 0]` (line 181).
`coords.detach()` (line 119) is the identity on values. -/
noncomputable def stepIter (m : Module) (env : Ext) (backup : CoordsT)
    (st : St) : St :=
  let delta := stepDelta m env st
  let feats := updateTrackFeats m st.trackFeats (deltaFeatsOf delta)
  let coords : CoordsT :=
    fun b s n => vadd (st.coords b s n) (deltaCoordsOf delta b n s)
  { coords := fun b s n => if s = 0 then backup b s n else coords b s n
    trackFeats := feats }

/-- Lines 184-187: the per-iteration prediction appended to `coord_preds`:
`coords * self.stride * down_ratio` when `down_ratio > 1`, else
`coords * self.stride`. -/
noncomputable def predOf (m : Module) (downRatio : ℝ) (c : CoordsT) : CoordsT :=
  fun b s n =>
    if 1 < downRatio then vscale downRatio (vscale m.stride (c b s n))
    else vscale m.stride (c b s n)

/-- The iteration loop `for itr in range(iters)` (lines 116-187), returning
the final state and the list of per-iteration predictions in iteration
order. -/
noncomputable def runLoop (m : Module) (env : Ext) (backup : CoordsT)
    (downRatio : ℝ) : ℕ → St → St × List CoordsT
  | 0, st => (st, [])
  | k + 1, st =>
      let st' := stepIter m env backup st
      let r := runLoop m env backup downRatio k st'
      (r.1, predOf m downRatio st'.coords :: r.2)

/-!  ## `forward`: the whole call  -/

/-- The values computed by `forward` (lines 189-199): the prediction list,
the optional visibility map, the final track features and the
reference-frame sampled query feature.  The python code returns all four
when `return_feat` is set and only the first two otherwise; the model always
carries all four. -/
noncomputable def forwardCore (m : Module) (env : Ext)
    (queryPoints : ℕ → ℕ → Vec2) (iters : ℕ) (downRatio : ℝ) :
    List CoordsT × Option VisT × FeatsT × (ℕ → ℕ → ℕ → ℝ) :=
  let st0 := initSt m env downRatio queryPoints
  let backup := initCoords m downRatio queryPoints
  let r := runLoop m env backup downRatio iters st0
  let vis : Option VisT :=
    match m.visPredictor with
    | some vh =>
        some fun b s n =>
          sigmoid (vh.b + ∑ i ∈ Finset.range m.latent_dim,
            vh.w i * r.1.trackFeats b s n i)
    | none => none
  (r.2, vis, r.1.trackFeats,
    fun b n i => env.sampleRef b (initCoords m downRatio queryPoints b 0 n) i)

/-- The entry of `forward` (lines 82-85): unpack `B, N, D =
query_points.shape` and `B, S, C, HH, WW = fmaps.shape` (a shape of the
wrong rank fails the tuple unpacking) and `assert D == 2`; only then is any
computation performed.  A failure produces `Except.error` and no partial
output. -/
noncomputable def forward (m : Module) (env : Ext)
    (queryShape fmapShape : List ℕ) (queryPoints : ℕ → ℕ → Vec2)
    (iters : ℕ) (_returnFeat : Bool) (downRatio : ℝ) :
    Except String (List CoordsT × Option VisT × FeatsT × (ℕ → ℕ → ℕ → ℝ)) :=
  match queryShape, fmapShape with
  | [_, _, d], [_, _, _, _, _] =>
      if d = 2 then Except.ok (forwardCore m env queryPoints iters downRatio)
      else Except.error "assert D == 2 failed"
  | _, _ => Except.error "shape unpacking failed"

/-!  ## Concrete fixtures used to instantiate the theorems  -/

/-- The all-zero coords tensor, used as the `getD` default. -/
def zeroCoords : CoordsT := fun _ _ _ => (0, 0)

/-- A concrete instance of the external collaborators in which every
capability returns zeros of the contracted width. -/
def zeroEnv : Ext where
  sampleRef := fun _ _ _ => 0
  fcorrDense := fun _ _ _ _ _ => []
  fcorrEff := fun _ _ _ _ _ => []
  get2dEmb := fun d _ => List.replicate d 0
  get2dEmb_len := fun d _ => List.length_replicate d 0
  samplePos := fun d _ _ => List.replicate d 0
  samplePos_len := fun d _ _ => List.length_replicate d 0
  updateformer := fun _ _ _ _ => []

/-- Zero parameters for the visibility head. -/
def zeroVis : VisHead := { w := fun _ => 0, b := 0 }

/-- The module built with the default constructor arguments of
`BaseTrackerPredictor` (`stride=4, corr_levels=5, corr_radius=4,
latent_dim=128, hidden_size=384, use_spaceatt=True, depth=6`) and zero
learned parameters, for either value of `fine`. -/
def defaultModule (fine : Bool) : Module :=
  mkModule 4 5 4 128 384 true 6 fine false
    (fun _ => 0) (fun _ => 0) (fun _ _ => 0) (fun _ => 0) zeroVis

/-- The constant query-point tensor at source pixel (40, 40). -/
def q40 : ℕ → ℕ → Vec2 := fun _ _ => (40, 40)

/-- The constant query-point tensor at feature-map coordinate (10, 10). -/
def q10 : ℕ → ℕ → Vec2 := fun _ _ => (10, 10)

/-!  ## Helper lemmas about the iteration loop  -/

theorem sigmoid_pos_lt_one (x : ℝ) : 0 < sigmoid x ∧ sigmoid x < 1 := by
  have hexp : 0 < Real.exp (-x) := Real.exp_pos _
  constructor
  · exact div_pos one_pos (by linarith)
  · rw [sigmoid, div_lt_one (by linarith)]
    linarith

theorem stepIter_anchor (m : Module) (env : Ext) (backup : CoordsT) (st : St)
    (b n : ℕ) : (stepIter m env backup st).coords b 0 n = backup b 0 n := by
  simp [stepIter]

theorem iterate_anchor (m : Module) (env : Ext) (backup : CoordsT) (st : St)
    (k b n : ℕ) (hk : 1 ≤ k) :
    ((stepIter m env backup)^[k] st).coords b 0 n = backup b 0 n := by
  obtain ⟨j, rfl⟩ : ∃ j, k = j + 1 := ⟨k - 1, by omega⟩
  rw [Function.iterate_succ_apply']
  exact stepIter_anchor m env backup _ b n

theorem runLoop_length (m : Module) (env : Ext) (backup : CoordsT) (d : ℝ) :
    ∀ (k : ℕ) (st : St), ((runLoop m env backup d k st).2).length = k := by
  intro k
  induction k with
  | zero => intro st; rfl
  | succ j ih => intro st; simp [runLoop, ih]

theorem runLoop_getD (m : Module) (env : Ext) (backup : CoordsT) (d : ℝ) :
    ∀ (k : ℕ) (st : St) (i : ℕ), i < k →
      ((runLoop m env backup d k st).2).getD i zeroCoords
        = predOf m d ((stepIter m env backup)^[i + 1] st).coords := by
  intro k
  induction k with
  | zero => intro st i hi; omega
  | succ j ih =>
      intro st i hi
      cases i with
      | zero => simp [runLoop]
      | succ i' =>
          have h := ih (stepIter m env backup st) i' (by omega)
          simp only [runLoop, List.getD_cons_succ]
          rw [h, ← Function.iterate_succ_apply]

theorem forwardCore_preds_length (m : Module) (env : Ext)
    (q : ℕ → ℕ → Vec2) (iters : ℕ) (d : ℝ) :
    ((forwardCore m env q iters d).1).length = iters := by
  simp [forwardCore, runLoop_length]

theorem forwardCore_preds_getD (m : Module) (env : Ext) (q : ℕ → ℕ → Vec2)
    (iters : ℕ) (d : ℝ) (i : ℕ) (hi : i < iters) :
    ((forwardCore m env q iters d).1).getD i zeroCoords
      = predOf m d
          ((stepIter m env (initCoords m d q))^[i + 1]
            (initSt m env d q)).coords := by
  simp only [forwardCore]
  exact runLoop_getD m env _ d iters _ i hi

theorem padTI_length_of_fit (td flowsLen : ℕ) (ti : List ℝ)
    (h1 : ti.length < td) (h2 : td - ti.length ≤ flowsLen) :
    (padTI td flowsLen ti).length = td := by
  unfold padTI
  rw [if_pos h1, List.length_append, List.length_replicate,
    Nat.min_eq_left h2]
  omega

theorem forwardCore_anchor (m : Module) (env : Ext) (q : ℕ → ℕ → Vec2)
    (iters : ℕ) (d : ℝ) (i b n : ℕ) (hi : i < iters) :
    ((forwardCore m env q iters d).1).getD i zeroCoords b 0 n
      = predOf m d (initCoords m d q) b 0 n := by
  rw [forwardCore_preds_getD m env q iters d i hi]
  simp only [predOf]
  rw [iterate_anchor m env _ _ (i + 1) b n (by omega)]

/-!  ## Claim C3  -/

/-- C3 counterexample: with the default configuration
(`corr_levels=5, corr_radius=4, latent_dim=128`) in fine mode,
`transformer_dim = 666`, which is not a multiple of 4 — the claim that
every configuration in both modes is padded to a multiple-of-4 alignment is
false. -/
theorem c3_counterexample :
    transformerDim 5 4 128 true = 666 ∧ transformerDim 5 4 128 true % 4 ≠ 0 := by
  constructor <;> decide

/-- C3 amended: in normal (non-fine) mode `transformer_dim` is the base
width `corr_levels*(2*corr_radius+1)^2 + 2*latent_dim` rounded up to the
next multiple of 4 (so `transformer_dim % 4 = 0`); in fine mode the legacy
rule adds 4 to an even base and 5 to an odd base, which need not be a
multiple of 4. -/
theorem c3_transformer_dim (cl cr L : ℕ) :
    transformerDim cl cr L false % 4 = 0 ∧
    cl * (cr * 2 + 1) ^ 2 + L * 2 ≤ transformerDim cl cr L false ∧
    transformerDim cl cr L false < cl * (cr * 2 + 1) ^ 2 + L * 2 + 4 ∧
    transformerDim cl cr L true
      = cl * (cr * 2 + 1) ^ 2 + L * 2
        + (if (cl * (cr * 2 + 1) ^ 2 + L * 2) % 2 = 0 then 4 else 5) := by
  simp only [transformerDim, Bool.false_eq_true, if_false, if_true]
  refine ⟨?_, ?_, ?_, trivial⟩ <;> omega

/-!  ## Claim C1  -/

/-- C1 counterexample: with `stride = 4` and `down_ratio = 1` (the default),
a query point at source pixel (40, 40) is NOT rescaled: the initial internal
coordinate is (40, 40), not (10, 10), and the returned reference-frame
prediction entry of the first iteration is (160, 160), not (40, 40) — the
rescale by `down_ratio` and `stride` happens only when `down_ratio > 1`. -/
theorem c1_counterexample :
    initCoords (defaultModule false) 1 q40 0 0 0 = ((40 : ℝ), 40) ∧
    initCoords (defaultModule false) 1 q40 0 0 0 ≠ ((10 : ℝ), 10) ∧
    ((forwardCore (defaultModule false) zeroEnv q40 1 1).1).getD 0 zeroCoords 0 0 0
      = ((160 : ℝ), 160) := by
  have h0 : initCoords (defaultModule false) 1 q40 0 0 0 = ((40 : ℝ), 40) := by
    simp [initCoords, scaleQuery, q40]
  refine ⟨h0, ?_, ?_⟩
  · rw [h0]
    intro h
    have := congrArg Prod.fst h
    norm_num at this
  · rw [forwardCore_anchor (defaultModule false) zeroEnv q40 1 1 0 0 0
      (by norm_num)]
    simp [predOf, initCoords, scaleQuery, q40, vscale, defaultModule, mkModule]
    norm_num

/-- C1 amended: the query points are rescaled by `down_ratio` and then by
`stride` only when `down_ratio > 1`; with `down_ratio = 1` they are used
unchanged as the initial internal coordinates (the caller supplies them
already in feature-map units).  In both cases the reference-frame entry of
every returned prediction is the initial internal coordinate rescaled back,
so it equals the original query point when `down_ratio > 1`, and
`stride * query` when `down_ratio = 1`. -/
theorem c1_query_scaling (m : Module) (env : Ext) (q : ℕ → ℕ → Vec2)
    (iters : ℕ) (d : ℝ) (i b n s : ℕ) (hstride : 0 < m.stride)
    (hi : i < iters) :
    (1 < d →
      initCoords m d q b s n
          = ((q b n).1 / d / m.stride, (q b n).2 / d / m.stride) ∧
      ((forwardCore m env q iters d).1).getD i zeroCoords b 0 n = q b n) ∧
    (d = 1 →
      initCoords m d q b s n = q b n ∧
      ((forwardCore m env q iters d).1).getD i zeroCoords b 0 n
          = vscale (m.stride : ℝ) (q b n)) := by
  have hs : ((m.stride : ℝ)) ≠ 0 := by
    exact_mod_cast Nat.pos_iff_ne_zero.mp hstride
  constructor
  · intro hd
    have hd0 : d ≠ 0 := by linarith
    constructor
    · simp [initCoords, scaleQuery, hd]
    · rw [forwardCore_anchor m env q iters d i b n hi]
      simp only [predOf, if_pos hd, initCoords, scaleQuery, vscale]
      refine Prod.ext ?_ ?_ <;> · simp only; field_simp; ring
  · rintro rfl
    have hd : ¬(1 : ℝ) < 1 := lt_irrefl 1
    constructor
    · simp [initCoords, scaleQuery, hd]
    · rw [forwardCore_anchor m env q iters 1 i b n hi]
      simp [predOf, hd, initCoords, scaleQuery]

/-- C1 witness: in the concrete scenario of the amended claim with
`stride = 4` and `down_ratio = 1`, a query supplied at feature-map
coordinate (10, 10) is used unchanged and the returned reference-frame
entry is (40, 40). -/
theorem c1_query_scaling_witness :
    initCoords (defaultModule false) 1 q10 0 0 0 = q10 0 0 ∧
    ((forwardCore (defaultModule false) zeroEnv q10 1 1).1).getD 0 zeroCoords 0 0 0
      = vscale ((defaultModule false).stride : ℝ) (q10 0 0) :=
  (c1_query_scaling (defaultModule false) zeroEnv q10 1 1 0 0 0 0
    (by norm_num [defaultModule, mkModule]) (by norm_num)).2 rfl

/-!  ## Claim C2  -/

/-- C2 (anchor invariant): for every batch and track, the internal
reference-frame coordinate after any number `k` of iterations equals the
scaled query coordinate exactly (any delta the Update Function produced for
frame 0 is overwritten by the re-anchor), and the reference-frame entry of
every prediction snapshot appended during the loop equals the scaled query
coordinate rescaled back to source units. -/
theorem c2_anchor_invariant (m : Module) (env : Ext) (q : ℕ → ℕ → Vec2)
    (iters : ℕ) (d : ℝ) (k i b n : ℕ) (hi : i < iters) :
    ((stepIter m env (initCoords m d q))^[k]
        (initSt m env d q)).coords b 0 n
      = scaleQuery m.stride d (q b n) ∧
    ((forwardCore m env q iters d).1).getD i zeroCoords b 0 n
      = (if 1 < d then
          vscale d (vscale m.stride (scaleQuery m.stride d (q b n)))
        else vscale m.stride (scaleQuery m.stride d (q b n))) := by
  constructor
  · cases k with
    | zero => simp [initSt, initCoords]
    | succ j =>
        rw [iterate_anchor m env _ _ (j + 1) b n (by omega)]
        simp [initCoords]
  · rw [forwardCore_anchor m env q iters d i b n hi]
    simp [predOf, initCoords]

/-- C2 witness: the anchor invariant instantiated at the default module,
the zero environment, one iteration, query (40, 40) and `down_ratio = 1`. -/
theorem c2_anchor_invariant_witness :
    ((stepIter (defaultModule false) zeroEnv
        (initCoords (defaultModule false) 1 q40))^[1]
        (initSt (defaultModule false) zeroEnv 1 q40)).coords 0 0 0
      = scaleQuery (defaultModule false).stride 1 (q40 0 0) ∧
    ((forwardCore (defaultModule false) zeroEnv q40 1 1).1).getD 0 zeroCoords 0 0 0
      = (if (1 : ℝ) < 1 then
          vscale 1 (vscale (defaultModule false).stride
            (scaleQuery (defaultModule false).stride 1 (q40 0 0)))
        else vscale (defaultModule false).stride
          (scaleQuery (defaultModule false).stride 1 (q40 0 0))) :=
  c2_anchor_invariant (defaultModule false) zeroEnv q40 1 1 1 0 0 0
    (by norm_num)

/-!  ## Claim C4  -/

/-- C4: the returned prediction sequence has length exactly `iters`; its
`i`-th element is the coords state after `i + 1` iterations rescaled to
source units, and that rescale multiplies by `stride` and additionally by
`down_ratio` exactly when `down_ratio > 1`. -/
theorem c4_iteration_count (m : Module) (env : Ext) (q : ℕ → ℕ → Vec2)
    (iters : ℕ) (d : ℝ) :
    ((forwardCore m env q iters d).1).length = iters ∧
    (∀ i, i < iters →
      ((forwardCore m env q iters d).1).getD i zeroCoords
        = predOf m d
            ((stepIter m env (initCoords m d q))^[i + 1]
              (initSt m env d q)).coords) ∧
    (∀ (c : CoordsT) (b s n : ℕ),
      predOf m d c b s n
        = if 1 < d then vscale d (vscale m.stride (c b s n))
          else vscale m.stride (c b s n)) := by
  refine ⟨forwardCore_preds_length m env q iters d, ?_, ?_⟩
  · intro i hi
    exact forwardCore_preds_getD m env q iters d i hi
  · intro c b s n
    rfl

/-- C4 witness: the iteration-count theorem instantiated at the default
module, the zero environment and one iteration. -/
theorem c4_iteration_count_witness :
    ((forwardCore (defaultModule false) zeroEnv q40 1 1).1).length = 1 ∧
    ((forwardCore (defaultModule false) zeroEnv q40 1 1).1).getD 0 zeroCoords
      = predOf (defaultModule false) 1
          ((stepIter (defaultModule false) zeroEnv
            (initCoords (defaultModule false) 1 q40))^[1]
            (initSt (defaultModule false) zeroEnv 1 q40)).coords := by
  have h := c4_iteration_count (defaultModule false) zeroEnv q40 1 1
  exact ⟨h.1, h.2.1 0 (by norm_num)⟩

/-!  ## Claim C5  -/

/-- C5 counterexample: in fine mode at the default dimensions
(`corr_levels=5, corr_radius=4, latent_dim=128`), the concatenated input
has 66 + 405 + 128 = 599 channels, `transformer_dim = 666`, and the pad
block `zeros_like(flows_emb[..., 0:pad_dim])` is clamped to the 66 channels
of the flow embedding, so the padded width is 665, not exactly
`transformer_dim` — the claim that a narrower input is always zero-padded
to width exactly `transformer_dim` is false. -/
theorem c5_counterexample :
    (List.replicate 599 (0 : ℝ)).length < transformerDim 5 4 128 true ∧
    (padTI (transformerDim 5 4 128 true) (flowsEmbDim 128 + 2)
        (List.replicate 599 (0 : ℝ))).length
      ≠ transformerDim 5 4 128 true := by
  have htd : transformerDim 5 4 128 true = 666 := by decide
  have hf : flowsEmbDim 128 + 2 = 66 := by decide
  rw [htd, hf]
  constructor
  · rw [List.length_replicate]
    norm_num
  · unfold padTI
    rw [List.length_replicate, if_pos (by norm_num), List.length_append,
      List.length_replicate, List.length_replicate]
    norm_num

/-- C5 amended: a per-step input at least as wide as `transformer_dim` is
passed through unchanged; a narrower input is zero-padded on the right by
`min (transformer_dim - width) flowsWidth` channels (the pad block is the
zero image of a slice of the flow embedding, hence clamped to the flow
embedding width), and the original channels are never truncated.  With the
widths of the spec (flow embedding `latent_dim/2 + 2`, correlation
`corr_levels*(2*corr_radius+1)^2`, features `latent_dim`) the padded width
reaches exactly `transformer_dim` in normal (non-fine) mode. -/
theorem c5_padding (td flowsLen : ℕ) (ti : List ℝ) :
    (td ≤ ti.length → padTI td flowsLen ti = ti) ∧
    (ti.length < td →
      (padTI td flowsLen ti).length
        = ti.length + min (td - ti.length) flowsLen) ∧
    (∀ j, j < ti.length → (padTI td flowsLen ti).getD j 0 = ti.getD j 0) ∧
    (∀ (cl cr L : ℕ) (fe corr fl : List ℝ),
      fe.length = flowsEmbDim L + 2 →
      corr.length = cl * (cr * 2 + 1) ^ 2 →
      fl.length = L →
      (fe ++ corr ++ fl).length < transformerDim cl cr L false →
      (padTI (transformerDim cl cr L false) fe.length
          (fe ++ corr ++ fl)).length
        = transformerDim cl cr L false) := by
  refine ⟨?_, ?_, ?_, ?_⟩
  · intro h
    simp [padTI, Nat.not_lt.mpr h]
  · intro h
    simp [padTI, h]
  · intro j hj
    by_cases h : ti.length < td
    · simp only [padTI, if_pos h]
      exact List.getD_append ti _ 0 j hj
    · simp [padTI, h]
  · intro cl cr L fe corr fl hfe hcorr hfl hlt
    refine padTI_length_of_fit _ _ _ hlt ?_
    have hw : (fe ++ corr ++ fl).length
        = fe.length + corr.length + fl.length := by
      rw [List.length_append, List.length_append]
    rw [hw] at hlt ⊢
    rw [hfe, hcorr, hfl] at hlt ⊢
    simp only [transformerDim, Bool.false_eq_true, if_false, flowsEmbDim]
      at hlt ⊢
    generalize cl * (cr * 2 + 1) ^ 2 = k at hlt ⊢
    omega

/-- C5 witness: at the default dimensions in normal mode
(`transformer_dim = 664`), a concatenated input of 599 channels with a
66-channel flow embedding is padded to exactly 664 channels. -/
theorem c5_padding_witness :
    (padTI (transformerDim 5 4 128 false)
        ((List.replicate 66 (0 : ℝ)).length)
        (List.replicate 66 (0 : ℝ) ++ List.replicate 405 (0 : ℝ)
          ++ List.replicate 128 (0 : ℝ))).length
      = transformerDim 5 4 128 false :=
  (c5_padding (transformerDim 5 4 128 false)
      ((List.replicate 66 (0 : ℝ)).length)
      (List.replicate 66 (0 : ℝ) ++ List.replicate 405 (0 : ℝ)
        ++ List.replicate 128 (0 : ℝ))).2.2.2 5 4 128
    (List.replicate 66 (0 : ℝ)) (List.replicate 405 (0 : ℝ))
    (List.replicate 128 (0 : ℝ))
    (by rw [List.length_replicate]; decide)
    (by rw [List.length_replicate]; decide)
    (by rw [List.length_replicate])
    (by simp only [List.length_append, List.length_replicate]; decide)

/-!  ## Claim C6  -/

/-- C6: when `fine` is off, the visibility head is constructed and the
returned visibility is the logistic activation of an affine projection of
the final track features, applied independently per (batch, frame, track),
with every entry strictly between 0 and 1; when `fine` is on, the head is
not constructed at all (`visPredictor = none`) and the visibility output is
`none`. -/
theorem c6_visibility (stride cl cr L hid : ℕ) (sp : Bool) (dep : ℕ)
    (fine eff : Bool) (gamma beta : ℕ → ℝ) (updW : ℕ → ℕ → ℝ)
    (updB : ℕ → ℝ) (vh : VisHead) (env : Ext) (q : ℕ → ℕ → Vec2)
    (iters : ℕ) (d : ℝ) :
    (mkModule stride cl cr L hid sp dep fine eff gamma beta updW updB
        vh).visPredictor
      = (if fine then none else some vh) ∧
    (fine = true →
      (forwardCore (mkModule stride cl cr L hid sp dep fine eff gamma beta
          updW updB vh) env q iters d).2.1 = none) ∧
    (fine = false → ∃ v : VisT,
      (forwardCore (mkModule stride cl cr L hid sp dep fine eff gamma beta
          updW updB vh) env q iters d).2.1 = some v ∧
      ∀ b s n : ℕ,
        v b s n
            = sigmoid (vh.b + ∑ i ∈ Finset.range L,
                vh.w i *
                  (forwardCore (mkModule stride cl cr L hid sp dep fine eff
                    gamma beta updW updB vh) env q iters d).2.2.1 b s n i) ∧
        0 < v b s n ∧ v b s n < 1) := by
  refine ⟨rfl, ?_, ?_⟩
  · rintro rfl
    simp [forwardCore, mkModule]
  · rintro rfl
    refine ⟨fun b s n =>
        sigmoid (vh.b + ∑ i ∈ Finset.range L,
          vh.w i *
            (forwardCore (mkModule stride cl cr L hid sp dep false eff gamma
              beta updW updB vh) env q iters d).2.2.1 b s n i),
      ?_, ?_⟩
    · simp [forwardCore, mkModule]
    · intro b s n
      exact ⟨rfl, (sigmoid_pos_lt_one _).1, (sigmoid_pos_lt_one _).2⟩

/-- C6 witness: at the default configuration, fine mode yields no
visibility output, and normal mode yields a visibility map whose entry at
(0, 0, 0) lies strictly between 0 and 1. -/
theorem c6_visibility_witness :
    (forwardCore (defaultModule true) zeroEnv q40 1 1).2.1 = none ∧
    ∃ v : VisT,
      (forwardCore (defaultModule false) zeroEnv q40 1 1).2.1 = some v ∧
      0 < v 0 0 0 ∧ v 0 0 0 < 1 := by
  constructor
  · exact (c6_visibility 4 5 4 128 384 true 6 true false
      (fun _ => 0) (fun _ => 0) (fun _ _ => 0) (fun _ => 0) zeroVis
      zeroEnv q40 1 1).2.1 rfl
  · obtain ⟨v, hv, hprop⟩ := (c6_visibility 4 5 4 128 384 true 6 false false
      (fun _ => 0) (fun _ => 0) (fun _ _ => 0) (fun _ => 0) zeroVis
      zeroEnv q40 1 1).2.2 rfl
    exact ⟨v, hv, (hprop 0 0 0).2.1, (hprop 0 0 0).2.2⟩

/-!  ## Claim C7  -/

/-- C7: in every iteration the positional embedding added to the per-step
input is sampled at the reference-frame coordinates `coords[:, 0]` — it is
unchanged if the coordinates of all non-reference frames change — and it is
added elementwise (the channel width does not grow) to the input of every
frame before the Update Function is invoked. -/
theorem c7_pos_embedding (m : Module) (env : Ext)
    (coords coords2 : CoordsT) (ti : ChanT) (b n s : ℕ)
    (h0 : coords b 0 n = coords2 b 0 n)
    (hlen : (ti b n s).length = m.transformer_dim) :
    addPosEmb m env coords ti b n s
        = List.zipWith (· + ·) (ti b n s)
            (env.samplePos m.transformer_dim b (coords b 0 n)) ∧
    addPosEmb m env coords ti b n s = addPosEmb m env coords2 ti b n s ∧
    (addPosEmb m env coords ti b n s).length = (ti b n s).length ∧
    (∀ st : St, stepDelta m env st
        = env.updateformer
            (addPosEmb m env st.coords
              (transformerInputOf m env st.coords st.trackFeats
                (corrOf m env st)))) := by
  refine ⟨rfl, ?_, ?_, fun st => rfl⟩
  · unfold addPosEmb
    rw [h0]
  · unfold addPosEmb
    rw [List.length_zipWith, env.samplePos_len, hlen, Nat.min_self]

/-- C7 witness: the positional-embedding theorem instantiated at the
default module, the zero environment, the zero coordinates, a second
coordinate tensor that differs from the first on every non-reference frame,
and an input row of width `transformer_dim`. -/
theorem c7_pos_embedding_witness :
    addPosEmb (defaultModule false) zeroEnv zeroCoords
        (fun _ _ _ =>
          List.replicate (defaultModule false).transformer_dim (0 : ℝ)) 0 0 1
      = addPosEmb (defaultModule false) zeroEnv
          (fun _ s _ => if s = 0 then (0, 0) else (1, 1))
          (fun _ _ _ =>
            List.replicate (defaultModule false).transformer_dim (0 : ℝ)) 0 0 1 ∧
    (addPosEmb (defaultModule false) zeroEnv zeroCoords
        (fun _ _ _ =>
          List.replicate (defaultModule false).transformer_dim (0 : ℝ)) 0 0 1).length
      = (List.replicate (defaultModule false).transformer_dim (0 : ℝ)).length := by
  have h := c7_pos_embedding (defaultModule false) zeroEnv zeroCoords
    (fun _ s _ => if s = 0 then (0, 0) else (1, 1))
    (fun _ _ _ => List.replicate (defaultModule false).transformer_dim (0 : ℝ))
    0 0 1 (by simp [zeroCoords]) (by rw [List.length_replicate])
  exact ⟨h.2.1, h.2.2.1⟩

/-!  ## Claim C8  -/

/-- C8: the track features are updated in additive residual form — the new
feature equals the old feature plus the GELU of an affine transform of the
single-group GroupNorm of the feature deltas the Update Function returned —
and the residual path is independent of the previous feature value, which
never passes through the normalization or the activation. -/
theorem c8_residual_update (m : Module) (env : Ext) (backup : CoordsT)
    (st : St) (old old2 : FeatsT) (df : ℕ → ℕ → ℕ → ℕ → ℝ) (b s n i : ℕ) :
    (stepIter m env backup st).trackFeats b s n i
        = st.trackFeats b s n i
          + gelu (m.updB i + ∑ j ∈ Finset.range m.latent_dim,
              m.updW i j *
                groupNorm1 m.latent_dim m.normGamma m.normBeta
                  (deltaFeatsOf (stepDelta m env st) b n s) j) ∧
    updateTrackFeats m old df b s n i - old b s n i
        = updateTrackFeats m old2 df b s n i - old2 b s n i := by
  constructor
  · simp only [stepIter, updateTrackFeats, ffeatUpdater]
    ring
  · simp only [updateTrackFeats]
    ring

/-!  ## Claim C9  -/

/-- C9: if the last dimension of the query-point shape is not 2, or the
feature-map shape does not have rank 5, `forward` fails at entry with an
error and produces no output at all — the iteration loop never runs. -/
theorem c9_shape_guard (m : Module) (env : Ext) (qs fs : List ℕ)
    (q : ℕ → ℕ → Vec2) (iters : ℕ) (rf : Bool) (d : ℝ)
    (h : qs.getLastD 0 ≠ 2 ∨ fs.length ≠ 5) :
    ∃ msg, forward m env qs fs q iters rf d = Except.error msg := by
  unfold forward
  split
  · rcases h with h | h
    · rw [if_neg (by simpa [List.getLastD] using h)]
      exact ⟨_, rfl⟩
    · simp at h
  · exact ⟨_, rfl⟩

/-- C9 witness: a query shape whose last dimension is 3 (with a rank-5
feature-map shape) is rejected at entry. -/
theorem c9_shape_guard_witness :
    ∃ msg, forward (defaultModule false) zeroEnv [1, 1, 3] [1, 2, 128, 8, 8]
        q40 4 false 1 = Except.error msg :=
  c9_shape_guard (defaultModule false) zeroEnv [1, 1, 3] [1, 2, 128, 8, 8]
    q40 4 false 1 (Or.inl (by decide))

/-!  ## Claim C10  -/

/-- C10: calling with `iters = 0` does not fail: well-shaped inputs produce
`Except.ok`, the prediction sequence is empty, the final track features are
the initial ones (the reference-frame sampled feature broadcast across all
frames), and the visibility is computed from those initial features — or is
`none` when the head was not constructed (fine mode). -/
theorem c10_zero_iters (m : Module) (env : Ext) (q : ℕ → ℕ → Vec2) (d : ℝ)
    (rf : Bool) (B N S C HH WW : ℕ) :
    (forwardCore m env q 0 d).1 = [] ∧
    (forwardCore m env q 0 d).2.2.1
        = (fun b _s n i => env.sampleRef b (initCoords m d q b 0 n) i) ∧
    (m.visPredictor = none → (forwardCore m env q 0 d).2.1 = none) ∧
    (∀ vh, m.visPredictor = some vh →
      (forwardCore m env q 0 d).2.1
        = some fun b _s n =>
            sigmoid (vh.b + ∑ i ∈ Finset.range m.latent_dim,
              vh.w i * env.sampleRef b (initCoords m d q b 0 n) i)) ∧
    forward m env [B, N, 2] [B, S, C, HH, WW] q 0 rf d
        = Except.ok (forwardCore m env q 0 d) := by
  refine ⟨rfl, rfl, ?_, ?_, ?_⟩
  · intro h
    simp [forwardCore, runLoop, h]
  · intro vh h
    simp [forwardCore, runLoop, initSt, h]
  · simp [forward]

/-- C10 witness: with `iters = 0` at the default configuration, fine mode
returns an empty prediction list, `none` visibility and an `ok` result;
normal mode returns the visibility computed from the initial features. -/
theorem c10_zero_iters_witness :
    (forwardCore (defaultModule true) zeroEnv q40 0 1).1 = [] ∧
    (forwardCore (defaultModule true) zeroEnv q40 0 1).2.1 = none ∧
    forward (defaultModule true) zeroEnv [1, 1, 2] [1, 2, 128, 8, 8] q40 0
        false 1
      = Except.ok (forwardCore (defaultModule true) zeroEnv q40 0 1) ∧
    (forwardCore (defaultModule false) zeroEnv q40 0 1).2.1
      = some fun b _s n =>
          sigmoid (zeroVis.b + ∑ i ∈ Finset.range
              (defaultModule false).latent_dim,
            zeroVis.w i *
              zeroEnv.sampleRef b
                (initCoords (defaultModule false) 1 q40 b 0 n) i) := by
  have h1 := c10_zero_iters (defaultModule true) zeroEnv q40 1 false
    1 1 2 128 8 8
  have h2 := c10_zero_iters (defaultModule false) zeroEnv q40 1 false
    1 1 2 128 8 8
  refine ⟨h1.1, ?_, h1.2.2.2.2, ?_⟩
  · exact h1.2.2.1 (by simp [defaultModule, mkModule])
  · exact h2.2.2.2.1 zeroVis (by simp [defaultModule, mkModule])

end VggSfm
